import Mathlib

/-!
Verification of the sandbox-scheduler availability/booking engine.

Shallow embedding of:
* `backend/lib/generateSlotsForRange.js` (slot materialization: recurring
  rules, exceptions, notice/horizon filter, overlap annotation, dedup, sort);
* `backend/routes/bookings.js` (booking creation and cancellation) together
  with the Booking model's schema validators and pre-save hook;
* `backend/middleware/errorHandler.js` (error taxonomy: 400 VALIDATION_ERROR,
  404 NOT_FOUND, 409 CONFLICT, and the 500 INTERNAL_ERROR fallback that plain
  `Error` objects are mapped to).

Modeling conventions:
* Instants are integers, in minutes (UTC).  The provider timezone is a fixed
  UTC offset `tzOffset` in minutes (local wall time = UTC + tzOffset); DST
  transitions are out of scope of the claims treated here.
* Provider-local calendar dates are integer day indices; local wall time of
  day `d` at `m` minutes past local midnight is the integer `d * 1440 + m`.
  Day index `0` is anchored to a Monday, so the ISO weekday (1 = Monday ..
  7 = Sunday) of day `d` is `(d % 7) + 1`.
* Rule/exception clock times ("HH:MM" strings in the source, schema-validated
  by the regex `([01]?[0-9]|2[0-3]):[0-5][0-9]`) are minutes past midnight.
* Mongo ObjectIds are `Nat`; document stores are Lean lists.
* JS truthiness of `rule.slotDuration` is `≠ 0` on numbers; missing optional
  string fields are `Option`.
-/

namespace SandboxScheduler

/-- Booking.status enum from `models/Booking.js`:
`['booked', 'cancelled', 'completed', 'no-show']`. -/
inductive BookingStatus where
  | booked
  | cancelled
  | completed
  | noShow
deriving DecidableEq, Repr

/-- A persisted Booking document (`models/Booking.js`).  `endT` embeds the
`end` field (a Lean keyword). Times are UTC minutes. -/
structure Booking where
  id : Nat
  provider : Nat
  patient : Nat
  start : Int
  endT : Int
  status : BookingStatus
  cancelledAt : Option Int
deriving DecidableEq, Repr

/-- A RecurringRule subdocument (`models/Provider.js`): weekly availability
window with fixed slot granularity.  `startTime`/`endTime` are minutes past
local midnight. -/
structure RecurringRule where
  daysOfWeek : List Nat
  startTime : Nat
  endTime : Nat
  slotDuration : Nat
deriving DecidableEq, Repr

/-- An Exception subdocument (`models/Provider.js`): date-specific override.
`date` is a provider-local day index; `startTime`/`endTime` are optional
minutes past local midnight. -/
structure SchedException where
  date : Int
  available : Bool
  startTime : Option Nat
  endTime : Option Nat
deriving DecidableEq, Repr

/-- The provider's scheduleConfig, after the `||`-defaults applied at the top
of `generateSlotsForRange` (`timezone || 'UTC'`, `recurringRules || []`,
`exceptions || []`, `minNoticeMinutes || 0`, `maxDaysAhead || 365`). -/
structure ScheduleConfig where
  tzOffset : Int
  recurringRules : List RecurringRule
  exceptions : List SchedException
  minNoticeMinutes : Nat
  maxDaysAhead : Nat
deriving DecidableEq, Repr

/-- A Provider document, restricted to the fields the engine reads. -/
structure Provider where
  id : Nat
  scheduleConfig : ScheduleConfig
deriving DecidableEq, Repr

/-- An ephemeral slot as produced by `generateSlotsForRange`
(`{ start, end, isBooked, booking, providerTimezone, localStart, localEnd,
isException }`; the optional `exceptionNote` is not modeled).  `start`/`endT`
are UTC minutes, `localStart`/`localEnd` provider-local wall minutes. -/
structure Slot where
  start : Int
  endT : Int
  isBooked : Bool
  booking : Option Booking
  providerTz : Int
  localStart : Int
  localEnd : Int
  isException : Bool
deriving DecidableEq, Repr

/-- Error kinds assigned by `middleware/errorHandler.js`: the three factory
kinds (400 VALIDATION_ERROR / 404 NOT_FOUND / 409 CONFLICT) plus the 500
INTERNAL_ERROR fallback that a plain `Error` (no `statusCode`, not a mongoose
ValidationError) ends up with. -/
inductive ErrKind where
  | validation
  | notFound
  | conflict
  | internal
deriving DecidableEq, Repr

/-- `overlaps(slotStart, slotEnd, booking)` from `generateSlotsForRange.js`:
`start < booking.end && end > booking.start` (strict half-open overlap). -/
def overlaps (slotStart slotEnd : Int) (booking : Booking) : Bool :=
  decide (slotStart < booking.endT ∧ slotEnd > booking.start)

/-- One `while (cursor.plus(slotDuration) <= dayEnd)` slot-emission loop from
`generateSlotsForRange.js` (used for both rules and exceptions), with the
notice/horizon filter and overlapping-booking lookup inlined exactly as in
the source.  `cursor`/`dayEnd` are local wall minutes, `tz` the provider
offset, so the absolute instant of the cursor is `cursor - tz`.  The loop is
driven by a fuel argument so the definition stays structural; callers pass
fuel exceeding the possible iteration count (the source guarantees
termination because `slotDuration` is truthy, i.e. positive). -/
def emitSlotsAux (bookings : List Booking) (earliest latest tz : Int)
    (isExc : Bool) (dayEnd d : Int) : Nat → Int → List Slot
  | 0, _ => []
  | fuel + 1, cursor =>
    if cursor + d ≤ dayEnd then
      if cursor - tz < earliest ∨ cursor - tz > latest then
        emitSlotsAux bookings earliest latest tz isExc dayEnd d fuel (cursor + d)
      else
        { start := cursor - tz
          endT := cursor + d - tz
          isBooked := (bookings.find? fun b =>
            overlaps (cursor - tz) (cursor + d - tz) b).isSome
          booking := bookings.find? fun b => overlaps (cursor - tz) (cursor + d - tz) b
          providerTz := tz
          localStart := cursor
          localEnd := cursor + d
          isException := isExc }
          :: emitSlotsAux bookings earliest latest tz isExc dayEnd d fuel (cursor + d)
    else []

/-- The slot-emission loop with its fuel computed from the loop bounds. -/
def emitSlots (bookings : List Booking) (earliest latest tz : Int)
    (isExc : Bool) (cursor dayEnd d : Int) : List Slot :=
  emitSlotsAux bookings earliest latest tz isExc dayEnd d
    ((dayEnd - cursor).toNat + 1) cursor

/-- ISO weekday (1 = Monday .. 7 = Sunday) of a local day index
(`day.weekday` in the source); day 0 is anchored to a Monday. -/
def weekdayOf (day : Int) : Nat :=
  (day % 7).toNat + 1

/-- The per-rule branch of the day loop in `generateSlotsForRange.js`:
skip if the weekday is not in `daysOfWeek`, skip if `slotDuration` is falsy
(0), skip if `dayStart >= dayEnd`, else run the emission loop from
`date@startTime` to `date@endTime`.  (The source also skips rules whose
fields are missing or unparsable; the embedding's rules always carry parsed
fields.) -/
def ruleSlotsForDay (bookings : List Booking) (earliest latest tz : Int)
    (rule : RecurringRule) (day : Int) : List Slot :=
  if weekdayOf day ∈ rule.daysOfWeek then
    if rule.slotDuration = 0 then []
    else if (day * 1440 + rule.startTime : Int) ≥ day * 1440 + rule.endTime then []
    else
      emitSlots bookings earliest latest tz false (day * 1440 + rule.startTime)
        (day * 1440 + rule.endTime) rule.slotDuration
  else []

/-- `(rules[0] && rules[0].slotDuration) || 30`: the slot duration used for
special-availability exception windows. -/
def exceptionDuration (rules : List RecurringRule) : Nat :=
  match rules.head? with
  | some r => if r.slotDuration = 0 then 30 else r.slotDuration
  | none => 30

/-- The special-availability branch of the day loop: exceptions matching the
date with `available === true` and truthy `startTime`/`endTime` each
contribute an emission loop over `[date@startTime, date@endTime)` with
duration `exceptionDuration` (skipped when `exStart >= exEnd`). -/
def exceptionSlotsForDay (bookings : List Booking) (earliest latest tz : Int)
    (rules : List RecurringRule) (exceptions : List SchedException)
    (day : Int) : List Slot :=
  (exceptions.filter fun e =>
    decide (e.date = day) && e.available && e.startTime.isSome
      && e.endTime.isSome).flatMap fun e =>
    match e.startTime, e.endTime with
    | some st, some et =>
      if (day * 1440 + st : Int) ≥ day * 1440 + et then []
      else
        emitSlots bookings earliest latest tz true (day * 1440 + st)
          (day * 1440 + et) (exceptionDuration rules)
    | _, _ => []

/-- The full-day blackout lookup:
`exceptions.find(e => e.date === dateStr && e.available === false)`. -/
def blackoutOn (exceptions : List SchedException) (day : Int) : Bool :=
  (exceptions.find? fun e => decide (e.date = day) && !e.available).isSome

/-- One iteration of the day loop of `generateSlotsForRange`: a blacked-out
day contributes nothing (`continue`); otherwise the recurring-rule slots are
pushed first, then the special-availability exception slots. -/
def daySlots (cfg : ScheduleConfig) (bookings : List Booking)
    (earliest latest : Int) (day : Int) : List Slot :=
  if blackoutOn cfg.exceptions day then []
  else
    (cfg.recurringRules.flatMap fun r =>
      ruleSlotsForDay bookings earliest latest cfg.tzOffset r day)
      ++ exceptionSlotsForDay bookings earliest latest cfg.tzOffset
          cfg.recurringRules cfg.exceptions day

/-- `removeDuplicateSlots`: keep the first slot for each `(start, end)` key. -/
def removeDupAux (seen : List (Int × Int)) : List Slot → List Slot
  | [] => []
  | s :: rest =>
    if (s.start, s.endT) ∈ seen then removeDupAux seen rest
    else s :: removeDupAux ((s.start, s.endT) :: seen) rest

/-- `removeDuplicateSlots(slots)` from `generateSlotsForRange.js`. -/
def removeDuplicateSlots (slots : List Slot) : List Slot :=
  removeDupAux [] slots

/-- Insert a slot into a list sorted ascending by `start`. -/
def insertSorted (s : Slot) : List Slot → List Slot
  | [] => [s]
  | t :: ts => if s.start ≤ t.start then s :: t :: ts else t :: insertSorted s ts

/-- `uniqueSlots.sort((a, b) => new Date(a.start) - new Date(b.start))`:
sort ascending by start instant (insertion sort; the claims treated here are
order-insensitive, only membership and concrete evaluation matter). -/
def sortByStart (slots : List Slot) : List Slot :=
  slots.foldr insertSorted []

/-- Provider-local calendar day of a UTC instant: `/` on `Int` (Euclidean,
positive divisor) is floor division, so `(t + tz) / 1440` is the local day
index (`setZone(tz).startOf('day')` at day granularity). -/
def localDay (tz t : Int) : Int :=
  (t + tz) / 1440

/-- `earliestBookingTime = now + minNoticeMinutes` as a UTC instant. -/
def earliestOf (cfg : ScheduleConfig) (now : Int) : Int :=
  now + (cfg.minNoticeMinutes : Int)

/-- `latestBookingTime = now + maxDaysAhead days` as a UTC instant. -/
def latestOf (cfg : ScheduleConfig) (now : Int) : Int :=
  now + (cfg.maxDaysAhead : Int) * 1440

/-- `utcFetchStart = fromLocalStart.minus({days: 1})` as a UTC instant. -/
def fetchStart (cfg : ScheduleConfig) (fromT : Int) : Int :=
  localDay cfg.tzOffset fromT * 1440 - cfg.tzOffset - 1440

/-- `utcFetchEnd = toLocalEnd.plus({days: 1})` as a UTC instant (minute
granularity: the end-of-day `23:59:59.999` plus one day is the following
local midnight plus one day, and both comparisons against it are strict). -/
def fetchEnd (cfg : ScheduleConfig) (toT : Int) : Int :=
  (localDay cfg.tzOffset toT + 2) * 1440 - cfg.tzOffset

/-- The booking fetch of `generateSlotsForRange`:
`Booking.find({provider, status: 'booked', start < utcFetchEnd,
end > utcFetchStart})`. -/
def fetchBookings (cfg : ScheduleConfig) (providerId : Nat)
    (bookingsAll : List Booking) (fromT toT : Int) : List Booking :=
  bookingsAll.filter fun b =>
    decide (b.provider = providerId) && decide (b.status = BookingStatus.booked)
      && decide (b.start < fetchEnd cfg toT) && decide (b.endT > fetchStart cfg fromT)

/-- The inclusive local-day range `fromDay .. toDay` iterated by the day
loop (`for (let day = fromLocalStart; day <= toLocalEnd; ...)`). -/
def dayRange (fromDay toDay : Int) : List Int :=
  (List.range (toDay + 1 - fromDay).toNat).map fun (k : Nat) => fromDay + (k : Int)

/-- The pure body of `generateSlotsForRange(provider, fromISO, toISO)` after
input validation: the `rules.length === 0` early return, the day loop over
the local day range, dedup and sort.  `fromT`/`toT` are the parsed UTC
instants of `fromISO`/`toISO`. -/
def computeSlots (cfg : ScheduleConfig) (providerId : Nat)
    (bookingsAll : List Booking) (now fromT toT : Int) : List Slot :=
  if cfg.recurringRules.isEmpty then []
  else
    sortByStart (removeDuplicateSlots
      ((dayRange (localDay cfg.tzOffset fromT) (localDay cfg.tzOffset toT)).flatMap
        fun day =>
          daySlots cfg (fetchBookings cfg providerId bookingsAll fromT toT)
            (earliestOf cfg now) (latestOf cfg now) day))

/-- The schema constraints on clock-time fields that the Provider model
enforces (`HH:MM`, 24-hour): every stored rule or exception time is at most
`23:59`, i.e. 1439 minutes. -/
def validTimesB (cfg : ScheduleConfig) : Bool :=
  cfg.recurringRules.all
    (fun r => decide (r.startTime ≤ 1439) && decide (r.endTime ≤ 1439))
    && cfg.exceptions.all
      (fun e => e.startTime.all (fun t => decide (t ≤ 1439))
        && e.endTime.all (fun t => decide (t ≤ 1439)))

/-- `validateInputs(tz, fromISO, toISO)` from `generateSlotsForRange.js`,
composed with the error classification of `errorHandler`: every failure is
thrown as a plain `Error` (no `statusCode`, not a mongoose ValidationError),
which the error handler surfaces as 500 INTERNAL_ERROR.  `none` models an
unparsable ISO string (`!fromDT.isValid`).  The timezone check cannot fail
(`DateTime.now().setZone(tz)` never throws in luxon) and is not modeled.
`toDT.diff(fromDT, 'days').days > 90` is `toT - fromT > 90 * 1440` minutes. -/
def validateInputsM (fromParsed toParsed : Option Int) : Except ErrKind Unit :=
  match fromParsed with
  | none => .error .internal
  | some fromT =>
    match toParsed with
    | none => .error .internal
    | some toT =>
      if toT ≤ fromT then .error .internal
      else if toT - fromT > 90 * 1440 then .error .internal
      else .ok ()

/-- `GET /providers/:id/availability` (providers route): provider lookup
(404 when unknown), then `generateSlotsForRange`, whose body runs
`validateInputs` and then the pure slot computation. -/
def availability (providers : List Provider) (bookingsAll : List Booking)
    (now : Int) (providerId : Nat) (fromParsed toParsed : Option Int) :
    Except ErrKind (List Slot) :=
  match providers.find? fun p => decide (p.id = providerId) with
  | none => .error .notFound
  | some provider =>
    match validateInputsM fromParsed toParsed with
    | .error e => .error e
    | .ok _ =>
      match fromParsed, toParsed with
      | some fromT, some toT =>
        .ok (computeSlots provider.scheduleConfig providerId bookingsAll now fromT toT)
      | _, _ => .ok []

/-- `new Date('2020-01-01')` in minutes: the Booking schema's
"reasonable past date" floor for `start` (18262 days from the Unix epoch). -/
def epoch2020 : Int := 18262 * 1440

/-- The booking store: the persisted bookings plus the next ObjectId. -/
structure Store where
  bookings : List Booking
  nextId : Nat
deriving DecidableEq, Repr

/-- A `POST /bookings` request body after the `bookingSchema` middleware
(ids in ObjectId format, `start`/`end` parsable ISO strings, parsed here to
UTC instants in minutes). -/
structure CreateReq where
  providerId : Nat
  patientId : Nat
  start : Int
  endT : Int
deriving DecidableEq, Repr

/-- `router.post('/')` from `routes/bookings.js`, composed with what
`Booking.create` runs before inserting.  In source order:
provider lookup (404); `slotEnd <= slotStart` (400 validation); notice and
horizon checks (409 conflict each); the overlapping-`booked`-booking query
(409 conflict); then `Booking.create`, which first runs the schema field
validators (`start` must be after 2020-01-01 — a mongoose ValidationError,
hence 400) and then the pre-save hook's duration bounds (plain `Error`s,
hence 500 INTERNAL_ERROR), and only then inserts the document with
`status: 'booked'`. -/
def createBooking (providers : List Provider) (now : Int) (st : Store)
    (r : CreateReq) : Except ErrKind (Booking × Store) :=
  match providers.find? fun p => decide (p.id = r.providerId) with
  | none => .error .notFound
  | some provider =>
    if r.endT ≤ r.start then .error .validation
    else if r.start < now + (provider.scheduleConfig.minNoticeMinutes : Int) then
      .error .conflict
    else if r.start > now + (provider.scheduleConfig.maxDaysAhead : Int) * 1440 then
      .error .conflict
    else if (st.bookings.find? fun b =>
        decide (b.provider = r.providerId) && decide (b.status = BookingStatus.booked)
          && decide (b.start < r.endT) && decide (b.endT > r.start)).isSome then
      .error .conflict
    else if r.start ≤ epoch2020 then .error .validation
    else if r.endT - r.start < 5 then .error .internal
    else if r.endT - r.start > 480 then .error .internal
    else
      .ok (⟨st.nextId, r.providerId, r.patientId, r.start, r.endT, .booked, none⟩,
        { bookings := st.bookings
            ++ [⟨st.nextId, r.providerId, r.patientId, r.start, r.endT, .booked, none⟩],
          nextId := st.nextId + 1 })

/-- The status/cancelledAt update applied by `router.patch('/:id/cancel')`
when it saves the fetched booking. -/
def cancelUpdate (now : Int) (id : Nat) (b : Booking) : Booking :=
  if b.id = id then { b with status := .cancelled, cancelledAt := some now } else b

/-- `router.patch('/:id/cancel')` from `routes/bookings.js`: booking lookup
(404), 409 conflict when already cancelled, otherwise set
`status := 'cancelled'`, stamp `cancelledAt`, and save.  Saving re-runs the
schema validators and the pre-save duration hook on the updated document
(they can only fail for documents that could not have been created through
this engine). -/
def cancelBooking (now : Int) (st : Store) (id : Nat) :
    Except ErrKind (Booking × Store) :=
  match st.bookings.find? fun b => decide (b.id = id) with
  | none => .error .notFound
  | some b =>
    if b.status = .cancelled then .error .conflict
    else if b.start ≤ epoch2020 then .error .validation
    else if b.endT - b.start < 5 then .error .internal
    else if b.endT - b.start > 480 then .error .internal
    else
      .ok (cancelUpdate now id b,
        { bookings := st.bookings.map (cancelUpdate now id), nextId := st.nextId })

/-- An operation of the booking write path, tagged with the wall-clock time
at which it is processed. -/
inductive Op where
  | create (now : Int) (r : CreateReq)
  | cancel (now : Int) (id : Nat)
deriving DecidableEq, Repr

/-- Apply one operation to the store; a rejected operation leaves the store
unchanged (the engine aborts before any mutation on every error path). -/
def applyOp (providers : List Provider) (st : Store) : Op → Store
  | .create now r =>
    match createBooking providers now st r with
    | .ok (_, st') => st'
    | .error _ => st
  | .cancel now id =>
    match cancelBooking now st id with
    | .ok (_, st') => st'
    | .error _ => st

/-- Apply a sequence of operations to the store. -/
def applyOps (providers : List Provider) (st : Store) (ops : List Op) : Store :=
  ops.foldl (applyOp providers) st

instance exceptDecEq {ε α : Type} [DecidableEq ε] [DecidableEq α] :
    DecidableEq (Except ε α) := fun a b =>
  match a, b with
  | .error e, .error f => decidable_of_iff (e = f) (by simp)
  | .error _, .ok _ => isFalse (by simp)
  | .ok _, .error _ => isFalse (by simp)
  | .ok x, .ok y => decidable_of_iff (x = y) (by simp)

/-- Two bookings are compatible when, if they belong to the same provider and
are both `booked`, their half-open intervals do not strictly overlap. -/
def bookingsCompatible (a b : Booking) : Prop :=
  a.provider = b.provider → a.status = .booked → b.status = .booked →
    ¬ (a.start < b.endT ∧ a.endT > b.start)

instance : ∀ a b, Decidable (bookingsCompatible a b) := fun a b => by
  unfold bookingsCompatible
  infer_instance

/-- The engine-wide invariant: for each provider, the `booked`-status
bookings are pairwise non-overlapping. -/
def BookedNonOverlapping (l : List Booking) : Prop :=
  l.Pairwise bookingsCompatible

/-! Concrete configurations used to witness the theorems, taken from the
spec's test scenarios (§8): provider timezone UTC, one rule Mon-Fri
09:00-17:00 with 30-minute slots, and the Scenario B/C exceptions on a
Monday (local day index 0). -/

/-- The Scenario A recurring rule: Mon-Fri 09:00-17:00, 30-minute slots. -/
def ruleMonFri : RecurringRule :=
  { daysOfWeek := [1, 2, 3, 4, 5], startTime := 540, endTime := 1020,
    slotDuration := 30 }

/-- Scenario A configuration: UTC, the Mon-Fri rule, no exceptions. -/
def cfgScenarioA : ScheduleConfig :=
  { tzOffset := 0, recurringRules := [ruleMonFri], exceptions := [],
    minNoticeMinutes := 0, maxDaysAhead := 365 }

/-- Scenario C configuration: Scenario A plus an `available: true` exception
with window 18:00-19:00 on the Monday (day 0). -/
def cfgScenarioC : ScheduleConfig :=
  { tzOffset := 0, recurringRules := [ruleMonFri],
    exceptions := [{ date := 0, available := true, startTime := some 1080,
                     endTime := some 1140 }],
    minNoticeMinutes := 0, maxDaysAhead := 365 }

/-- Scenario B configuration: Scenario A plus an `available: false`
(blackout) exception on the Monday (day 0). -/
def cfgScenarioB : ScheduleConfig :=
  { tzOffset := 0, recurringRules := [ruleMonFri],
    exceptions := [{ date := 0, available := false, startTime := none,
                     endTime := none }],
    minNoticeMinutes := 0, maxDaysAhead := 365 }

/-- A provider with no recurring rules but a custom-window
`available: true` exception (exercises the `rules.length === 0` early
return of `generateSlotsForRange`). -/
def cfgNoRules : ScheduleConfig :=
  { tzOffset := 0, recurringRules := [],
    exceptions := [{ date := 0, available := true, startTime := some 1080,
                     endTime := some 1140 }],
    minNoticeMinutes := 0, maxDaysAhead := 365 }

/-- The strict half-open overlap condition of the write path's conflict
query, as a proposition over the store. -/
def hasOverlap (bookings : List Booking) (r : CreateReq) : Prop :=
  ∃ b ∈ bookings, b.provider = r.providerId ∧ b.status = BookingStatus.booked ∧
    b.start < r.endT ∧ b.endT > r.start

instance (bookings : List Booking) (r : CreateReq) :
    Decidable (hasOverlap bookings r) := by
  unfold hasOverlap
  infer_instance

/-- The first Scenario A slot (09:00-09:30 UTC on the Monday). -/
def slotA : Slot :=
  { start := 540, endT := 570, isBooked := false, booking := none,
    providerTz := 0, localStart := 540, localEnd := 570, isException := false }

/-- A booked booking covering the first Scenario A slot. -/
def bookingB0 : Booking :=
  { id := 7, provider := 1, patient := 1, start := 540, endT := 570,
    status := .booked, cancelledAt := none }

/-- The first Scenario A slot annotated as booked by `bookingB0`. -/
def slotABooked : Slot :=
  { start := 540, endT := 570, isBooked := true, booking := some bookingB0,
    providerTz := 0, localStart := 540, localEnd := 570, isException := false }

/-- A well-formed booking request used by the witnesses: provider 1,
30 minutes, one day after the reference instant 27000000. -/
def reqW : CreateReq :=
  { providerId := 1, patientId := 1, start := 27001440, endT := 27001470 }

/-! ### Helper lemmas about the slot-emission loop -/

/-- Shape of every slot produced by the emission loop: it lies between the
cursor's start position and `dayEnd`, has length exactly `d`, carries the
local/UTC instants related by the timezone offset, survives the
notice/horizon filter, and is annotated from the first overlapping fetched
booking. -/
theorem mem_emitSlotsAux {bookings : List Booking} {earliest latest tz : Int}
    {isExc : Bool} {dayEnd d : Int} (hd : 0 ≤ d) :
    ∀ {n : Nat} {cursor : Int} {s : Slot},
      s ∈ emitSlotsAux bookings earliest latest tz isExc dayEnd d n cursor →
      cursor ≤ s.localStart ∧ s.localEnd ≤ dayEnd ∧
        s.localEnd = s.localStart + d ∧
        s.start = s.localStart - tz ∧ s.endT = s.localEnd - tz ∧
        s.isException = isExc ∧ s.providerTz = tz ∧
        earliest ≤ s.start ∧ s.start ≤ latest ∧
        s.booking = bookings.find? (fun b => overlaps s.start s.endT b) ∧
        s.isBooked = (bookings.find? fun b => overlaps s.start s.endT b).isSome := by
  intro n
  induction n with
  | zero =>
    intro cursor s h
    simp [emitSlotsAux] at h
  | succ n ih =>
    intro cursor s h
    rw [emitSlotsAux] at h
    split at h
    case isTrue hc =>
      split at h
      case isTrue hf =>
        obtain ⟨h1, hrest⟩ := ih h
        exact ⟨by omega, hrest⟩
      case isFalse hf =>
        rcases List.mem_cons.mp h with rfl | h'
        · refine ⟨le_refl _, hc, rfl, rfl, rfl, rfl, rfl, ?_, ?_, rfl, rfl⟩
          · show earliest ≤ cursor - tz
            omega
          · show cursor - tz ≤ latest
            omega
        · obtain ⟨h1, hrest⟩ := ih h'
          exact ⟨by omega, hrest⟩
    case isFalse hc =>
      simp at h

/-- Shape of every slot produced by `emitSlots`. -/
theorem mem_emitSlots {bookings : List Booking} {earliest latest tz : Int}
    {isExc : Bool} {cursor dayEnd d : Int} {s : Slot} (hd : 0 ≤ d)
    (h : s ∈ emitSlots bookings earliest latest tz isExc cursor dayEnd d) :
    cursor ≤ s.localStart ∧ s.localEnd ≤ dayEnd ∧
      s.localEnd = s.localStart + d ∧
      s.start = s.localStart - tz ∧ s.endT = s.localEnd - tz ∧
      s.isException = isExc ∧ s.providerTz = tz ∧
      earliest ≤ s.start ∧ s.start ≤ latest ∧
      s.booking = bookings.find? (fun b => overlaps s.start s.endT b) ∧
      s.isBooked = (bookings.find? fun b => overlaps s.start s.endT b).isSome :=
  mem_emitSlotsAux hd h

/-- When the notice/horizon filter passes the whole window, the emission
loop produces exactly the arithmetic progression of `⌊(dayEnd - cursor) / d⌋`
slots of length `d` starting at `cursor`: the trailing remainder shorter
than `d` is dropped. -/
theorem emitSlotsAux_map_eq_range {bookings : List Booking}
    {earliest latest tz : Int} {isExc : Bool} {dayEnd d : Int} (hd : 0 < d) :
    ∀ {n : Nat} {cursor : Int}, dayEnd - cursor < (n : Int) * d →
      earliest ≤ cursor - tz → dayEnd - tz ≤ latest →
      (emitSlotsAux bookings earliest latest tz isExc dayEnd d n cursor).map
          (fun s => (s.localStart, s.localEnd))
        = (List.range ((dayEnd - cursor).toNat / d.toNat)).map
            (fun (k : Nat) => (cursor + (k : Int) * d, cursor + ((k : Int) + 1) * d)) := by
  intro n
  induction n with
  | zero =>
    intro cursor hn hE hL
    norm_num at hn
    have h0 : (dayEnd - cursor).toNat = 0 := by omega
    simp [emitSlotsAux, h0]
  | succ n ih =>
    intro cursor hn hE hL
    rw [emitSlotsAux]
    split
    case isTrue hc =>
      have hfilter : ¬ (cursor - tz < earliest ∨ cursor - tz > latest) := by
        omega
      rw [if_neg hfilter]
      have hcast : ((n : Int) + 1) * d = (n : Int) * d + d := by ring
      push_cast at hn
      rw [hcast] at hn
      have hn' : dayEnd - (cursor + d) < (n : Int) * d := by linarith
      have hE' : earliest ≤ cursor + d - tz := by omega
      have IH := ih hn' hE' hL
      rw [List.map_cons, IH]
      have hq : (dayEnd - cursor).toNat / d.toNat
          = (dayEnd - (cursor + d)).toNat / d.toNat + 1 := by
        have h1 : (dayEnd - cursor).toNat
            = (dayEnd - (cursor + d)).toNat + d.toNat := by omega
        rw [h1, Nat.add_div_right]
        omega
      rw [hq, List.range_succ_eq_map, List.map_cons, List.map_map]
      refine List.cons_eq_cons.mpr ⟨?_, ?_⟩
      · show ((cursor : Int), cursor + d) = (cursor + (0 : Nat) * d, cursor + ((0 : Nat) + 1) * d)
        norm_num
      · apply List.map_congr_left
        intro k hk
        simp only [Function.comp, Prod.mk.injEq]
        push_cast
        constructor <;> ring
    case isFalse hc =>
      have h0 : (dayEnd - cursor).toNat / d.toNat = 0 :=
        Nat.div_eq_of_lt (by omega)
      simp [h0]

/-- `emitSlots` version of `emitSlotsAux_map_eq_range`: the chosen fuel
exceeds the iteration count. -/
theorem emitSlots_map_eq_range {bookings : List Booking}
    {earliest latest tz : Int} {isExc : Bool} {cursor dayEnd d : Int}
    (hd : 0 < d) (hE : earliest ≤ cursor - tz) (hL : dayEnd - tz ≤ latest) :
    (emitSlots bookings earliest latest tz isExc cursor dayEnd d).map
        (fun s => (s.localStart, s.localEnd))
      = (List.range ((dayEnd - cursor).toNat / d.toNat)).map
          (fun (k : Nat) => (cursor + (k : Int) * d, cursor + ((k : Int) + 1) * d)) := by
  apply emitSlotsAux_map_eq_range hd ?_ hE hL
  have h0 : dayEnd - cursor ≤ ((dayEnd - cursor).toNat : Int) := by omega
  have h1 : ((dayEnd - cursor).toNat : Int) * 1 ≤ ((dayEnd - cursor).toNat : Int) * d :=
    mul_le_mul_of_nonneg_left (by omega) (by positivity)
  have h2 : (((dayEnd - cursor).toNat + 1 : Nat) : Int) * d
      = ((dayEnd - cursor).toNat : Int) * d + d := by push_cast; ring
  rw [h2]
  linarith

/-! ### Membership lemmas for sorting, dedup, and the day loop -/

theorem mem_insertSorted {x s : Slot} : ∀ {l : List Slot},
    x ∈ insertSorted s l ↔ x = s ∨ x ∈ l := by
  intro l
  induction l with
  | nil => simp [insertSorted]
  | cons t ts ih =>
    simp only [insertSorted]
    split
    · simp
    · simp only [List.mem_cons, ih]
      tauto

theorem mem_sortByStart {x : Slot} : ∀ {l : List Slot},
    x ∈ sortByStart l ↔ x ∈ l := by
  intro l
  induction l with
  | nil => simp [sortByStart]
  | cons s ts ih =>
    show x ∈ insertSorted s (sortByStart ts) ↔ _
    rw [mem_insertSorted, ih, List.mem_cons]

theorem mem_removeDupAux {x : Slot} {l : List Slot} :
    ∀ {seen : List (Int × Int)}, x ∈ removeDupAux seen l → x ∈ l := by
  induction l with
  | nil =>
    intro seen h
    simp [removeDupAux] at h
  | cons s ts ih =>
    intro seen h
    rw [removeDupAux] at h
    split at h
    · exact List.mem_cons_of_mem _ (ih h)
    · rcases List.mem_cons.mp h with rfl | h'
      · exact List.mem_cons_self _ _
      · exact List.mem_cons_of_mem _ (ih h')

theorem mem_removeDuplicateSlots {x : Slot} {l : List Slot}
    (h : x ∈ removeDuplicateSlots l) : x ∈ l :=
  mem_removeDupAux h

theorem exceptionDuration_pos (rules : List RecurringRule) :
    0 < exceptionDuration rules := by
  unfold exceptionDuration
  split
  · split <;> omega
  · omega

/-- Every slot in a computed response originates from `daySlots` at a day of
the requested local day range. -/
theorem mem_computeSlots {cfg : ScheduleConfig} {pid : Nat}
    {bkAll : List Booking} {now fromT toT : Int} {s : Slot}
    (h : s ∈ computeSlots cfg pid bkAll now fromT toT) :
    ∃ day : Int, localDay cfg.tzOffset fromT ≤ day ∧
      day ≤ localDay cfg.tzOffset toT ∧
      s ∈ daySlots cfg (fetchBookings cfg pid bkAll fromT toT)
          (earliestOf cfg now) (latestOf cfg now) day := by
  rw [computeSlots] at h
  split at h
  · simp at h
  · have h1 := mem_removeDuplicateSlots (mem_sortByStart.mp h)
    rw [List.mem_flatMap] at h1
    obtain ⟨day, hday, hs⟩ := h1
    rw [dayRange, List.mem_map] at hday
    obtain ⟨k, hk, rfl⟩ := hday
    rw [List.mem_range] at hk
    exact ⟨_, by omega, by omega, hs⟩

/-- Shape of every slot contributed by one day of the day loop, independent
of the schema's time bounds: it starts in or after the day's local midnight,
is nonempty, carries UTC instants offset by the timezone, survives the
notice/horizon filter, and is annotated from the first overlapping fetched
booking. -/
theorem mem_daySlots_window {cfg : ScheduleConfig} {bookings : List Booking}
    {earliest latest day : Int} {s : Slot}
    (h : s ∈ daySlots cfg bookings earliest latest day) :
    day * 1440 ≤ s.localStart ∧ s.localStart < s.localEnd ∧
      s.start = s.localStart - cfg.tzOffset ∧
      s.endT = s.localEnd - cfg.tzOffset ∧
      earliest ≤ s.start ∧ s.start ≤ latest ∧
      s.booking = bookings.find? (fun b => overlaps s.start s.endT b) ∧
      s.isBooked = (bookings.find? fun b => overlaps s.start s.endT b).isSome := by
  rw [daySlots] at h
  split at h
  · simp at h
  · rw [List.mem_append] at h
    rcases h with h | h
    · rw [List.mem_flatMap] at h
      obtain ⟨r, hr, hs⟩ := h
      simp only [ruleSlotsForDay] at hs
      split at hs
      case isTrue =>
        split at hs
        case isTrue => simp at hs
        case isFalse hd0 =>
          split at hs
          case isTrue => simp at hs
          case isFalse hlt =>
            obtain ⟨h1, h2, h3, h4, h5, h6, h7, h8, h9, h10, h11⟩ :=
              mem_emitSlots (by omega) hs
            exact ⟨by omega, by omega, h4, h5, h8, h9, h10, h11⟩
      case isFalse => simp at hs
    · simp only [exceptionSlotsForDay] at h
      rw [List.mem_flatMap] at h
      obtain ⟨e, he, hs⟩ := h
      obtain ⟨edate, eavail, est, eet⟩ := e
      cases est with
      | none => simp at hs
      | some st =>
        cases eet with
        | none => simp at hs
        | some et =>
          simp only at hs
          split at hs
          case isTrue => simp at hs
          case isFalse hlt =>
            have hdpos := exceptionDuration_pos cfg.recurringRules
            obtain ⟨h1, h2, h3, h4, h5, h6, h7, h8, h9, h10, h11⟩ :=
              mem_emitSlots (by omega) hs
            exact ⟨by omega, by omega, h4, h5, h8, h9, h10, h11⟩

/-- Under the schema's `HH:MM` bounds on rule and exception clock times,
every slot contributed by one day of the day loop ends by that local day's
`23:59`. -/
theorem mem_daySlots_localEnd {cfg : ScheduleConfig} {bookings : List Booking}
    {earliest latest day : Int} {s : Slot} (hwf : validTimesB cfg = true)
    (h : s ∈ daySlots cfg bookings earliest latest day) :
    s.localEnd ≤ day * 1440 + 1439 := by
  simp only [validTimesB, Bool.and_eq_true, List.all_eq_true,
    decide_eq_true_eq] at hwf
  obtain ⟨hwfr, hwfe⟩ := hwf
  rw [daySlots] at h
  split at h
  · simp at h
  · rw [List.mem_append] at h
    rcases h with h | h
    · rw [List.mem_flatMap] at h
      obtain ⟨r, hr, hs⟩ := h
      simp only [ruleSlotsForDay] at hs
      split at hs
      case isTrue =>
        split at hs
        case isTrue => simp at hs
        case isFalse hd0 =>
          split at hs
          case isTrue => simp at hs
          case isFalse hlt =>
            obtain ⟨h1, h2, hrest⟩ := mem_emitSlots (by omega) hs
            have := (hwfr r hr).2
            omega
      case isFalse => simp at hs
    · simp only [exceptionSlotsForDay] at h
      rw [List.mem_flatMap] at h
      obtain ⟨e, he, hs⟩ := h
      have hee := hwfe e (List.mem_filter.mp he).1
      obtain ⟨edate, eavail, est, eet⟩ := e
      cases est with
      | none => simp at hs
      | some st =>
        cases eet with
        | none => simp at hs
        | some et =>
          simp only at hs
          split at hs
          case isTrue => simp at hs
          case isFalse hlt =>
            obtain ⟨h1, h2, hrest⟩ :=
              mem_emitSlots (by positivity) hs
            have het : et ≤ 1439 := by
              have := hee.2
              simpa [Option.all] using this
            omega

/-! ### Helper lemmas for the write-path invariant -/

/-- A successful `createBooking` call preserves pairwise non-overlap of the
`booked` bookings: the conflict query guarantees the inserted booking is
compatible with every stored one. -/
theorem createBooking_preserves {providers : List Provider} {now : Int}
    {st : Store} {r : CreateReq} {b : Booking} {st' : Store}
    (h : createBooking providers now st r = .ok (b, st'))
    (hinv : BookedNonOverlapping st.bookings) :
    BookedNonOverlapping st'.bookings := by
  simp only [createBooking] at h
  split at h
  · exact Except.noConfusion h
  case h_2 provider hp =>
    split at h
    · exact Except.noConfusion h
    split at h
    · exact Except.noConfusion h
    split at h
    · exact Except.noConfusion h
    split at h
    case isTrue => exact Except.noConfusion h
    case isFalse hfound =>
      split at h
      · exact Except.noConfusion h
      split at h
      · exact Except.noConfusion h
      split at h
      · exact Except.noConfusion h
      injection h with h'
      injection h' with hb hst
      subst hst
      have hnone : st.bookings.find? (fun b =>
          decide (b.provider = r.providerId) && decide (b.status = BookingStatus.booked)
            && decide (b.start < r.endT) && decide (b.endT > r.start)) = none := by
        rcases hfq : st.bookings.find? _ with _ | x
        · rfl
        · rw [hfq] at hfound
          simp at hfound
      have hall := List.find?_eq_none.mp hnone
      show BookedNonOverlapping (st.bookings ++ [_])
      rw [BookedNonOverlapping, List.pairwise_append]
      refine ⟨hinv, List.pairwise_singleton _ _, ?_⟩
      intro a ha c hc
      rw [List.mem_singleton] at hc
      subst hc
      intro h1 h2 h3 h4
      apply hall a ha
      simp only [Bool.and_eq_true, decide_eq_true_eq]
      exact ⟨⟨⟨h1, h2⟩, h4.1⟩, h4.2⟩

/-- The per-booking update of a cancellation preserves compatibility:
it never changes provider or interval and can only move a status away from
`booked`. -/
theorem cancelUpdate_compat {now : Int} {id : Nat} {a b : Booking}
    (h : bookingsCompatible a b) :
    bookingsCompatible (cancelUpdate now id a) (cancelUpdate now id b) := by
  intro h1 h2 h3
  unfold cancelUpdate at h1 h2 h3 ⊢
  by_cases ha : a.id = id <;> by_cases hb : b.id = id <;>
    simp only [ha, hb, if_true, if_false, reduceIte] at h1 h2 h3 ⊢
  · exact absurd h2 (by simp)
  · exact absurd h2 (by simp)
  · exact absurd h3 (by simp)
  · exact h h1 h2 h3

/-- A successful `cancelBooking` call preserves pairwise non-overlap of the
`booked` bookings: it only shrinks the `booked` set. -/
theorem cancelBooking_preserves {now : Int} {st : Store} {id : Nat}
    {b : Booking} {st' : Store}
    (h : cancelBooking now st id = .ok (b, st'))
    (hinv : BookedNonOverlapping st.bookings) :
    BookedNonOverlapping st'.bookings := by
  simp only [cancelBooking] at h
  split at h
  · exact Except.noConfusion h
  case h_2 bk hbk =>
    split at h
    · exact Except.noConfusion h
    split at h
    · exact Except.noConfusion h
    split at h
    · exact Except.noConfusion h
    split at h
    · exact Except.noConfusion h
    injection h with h'
    injection h' with hb hst
    subst hst
    exact hinv.map _ (fun a c hac => cancelUpdate_compat hac)

/-- Every single operation (accepted or rejected) preserves the invariant. -/
theorem applyOp_preserves {providers : List Provider} {st : Store} {op : Op}
    (hinv : BookedNonOverlapping st.bookings) :
    BookedNonOverlapping ((applyOp providers st op).bookings) := by
  cases op with
  | create now r =>
    rcases hc : createBooking providers now st r with e | ⟨b, st'⟩
    · simp only [applyOp, hc]
      exact hinv
    · simp only [applyOp, hc]
      exact createBooking_preserves hc hinv
  | cancel now id =>
    rcases hc : cancelBooking now st id with e | ⟨b, st'⟩
    · simp only [applyOp, hc]
      exact hinv
    · simp only [applyOp, hc]
      exact cancelBooking_preserves hc hinv

/-! ### Claim theorems -/

/-- C1: for every provider the set of `booked`-status bookings is pairwise
non-overlapping under strict half-open semantics, and the invariant is
preserved by every sequence of `createBooking` (which only inserts after the
conflict query finds no overlapping `booked` booking) and `cancelBooking`
(which only shrinks the `booked` set) operations: starting from a state
where it holds, it still holds afterwards. -/
theorem booking_invariant_preserved {providers : List Provider} {st : Store}
    {ops : List Op} (hinv : BookedNonOverlapping st.bookings) :
    BookedNonOverlapping ((applyOps providers st ops).bookings) := by
  induction ops generalizing st with
  | nil => exact hinv
  | cons op ops ih => exact ih (applyOp_preserves hinv)

/-- C1 witness: from the empty store, a successful creation, a rejected
overlapping creation and a cancellation leave the invariant intact. -/
theorem booking_invariant_preserved_witness :
    BookedNonOverlapping (([] : List Booking)) ∧
      (applyOps [⟨1, cfgScenarioA⟩] ⟨[], 1⟩
          [.create 27000000 ⟨1, 1, 27001440, 27001470⟩,
           .create 27000000 ⟨1, 2, 27001450, 27001480⟩,
           .cancel 27000100 1]).bookings
        = [⟨1, 1, 1, 27001440, 27001470, .cancelled, some 27000100⟩] ∧
      BookedNonOverlapping
        ((applyOps [⟨1, cfgScenarioA⟩] ⟨[], 1⟩
            [.create 27000000 ⟨1, 1, 27001440, 27001470⟩,
             .create 27000000 ⟨1, 2, 27001450, 27001480⟩,
             .cancel 27000100 1]).bookings) :=
  ⟨List.Pairwise.nil, by decide,
    booking_invariant_preserved List.Pairwise.nil⟩

/-- C2 counterexample: a well-formed request (30 minutes, end after start,
existing provider) that overlaps no stored booking — the store is empty —
is nevertheless rejected with a conflict because it starts before the
provider's notice threshold, so no booking is created even though the claim
promises one. -/
theorem create_noOverlap_not_created :
    (¬ hasOverlap ([] : List Booking) ⟨1, 1, 26998560, 26998590⟩) ∧
      createBooking [⟨1, cfgScenarioA⟩] 27000000 ⟨[], 1⟩
          ⟨1, 1, 26998560, 26998590⟩ = .error .conflict :=
  ⟨by decide, by decide⟩

/-- C2 (amended): for a well-formed request (end after start, duration in
[5, 480] minutes, start after the schema's 2020-01-01 floor) on an existing
provider: an overlap with a stored `booked` booking of the provider always
yields ConflictError; with no overlap and the start inside the provider's
notice/horizon window the booking is created with exactly the requested
interval and status `booked`; with no overlap but the window violated the
request is rejected with ConflictError as well. -/
theorem create_booking_spec {providers : List Provider} {now : Int}
    {store : Store} {r : CreateReq} (p : Provider)
    (hp : providers.find? (fun q => decide (q.id = r.providerId)) = some p)
    (hwf : r.start < r.endT) (hd5 : 5 ≤ r.endT - r.start)
    (hd480 : r.endT - r.start ≤ 480) (hfloor : epoch2020 < r.start) :
    (hasOverlap store.bookings r →
      createBooking providers now store r = .error .conflict) ∧
      (¬ hasOverlap store.bookings r →
        now + (p.scheduleConfig.minNoticeMinutes : Int) ≤ r.start →
        r.start ≤ now + (p.scheduleConfig.maxDaysAhead : Int) * 1440 →
        createBooking providers now store r
          = .ok (⟨store.nextId, r.providerId, r.patientId, r.start, r.endT,
              .booked, none⟩,
            ⟨store.bookings
                ++ [⟨store.nextId, r.providerId, r.patientId, r.start, r.endT,
                  .booked, none⟩],
              store.nextId + 1⟩)) ∧
      (¬ hasOverlap store.bookings r →
        (r.start < now + (p.scheduleConfig.minNoticeMinutes : Int) ∨
          now + (p.scheduleConfig.maxDaysAhead : Int) * 1440 < r.start) →
        createBooking providers now store r = .error .conflict) := by
  have hfind : hasOverlap store.bookings r →
      (store.bookings.find? fun b =>
        decide (b.provider = r.providerId) && decide (b.status = BookingStatus.booked)
          && decide (b.start < r.endT) && decide (b.endT > r.start)).isSome = true := by
    intro hov
    rw [List.find?_isSome]
    obtain ⟨b, hb, h1, h2, h3, h4⟩ := hov
    exact ⟨b, hb, by simp [h1, h2, h3, h4]⟩
  have hfindn : ¬ hasOverlap store.bookings r →
      (store.bookings.find? fun b =>
        decide (b.provider = r.providerId) && decide (b.status = BookingStatus.booked)
          && decide (b.start < r.endT) && decide (b.endT > r.start)) = none := by
    intro hov
    rw [List.find?_eq_none]
    intro x hx hpx
    apply hov
    simp only [Bool.and_eq_true, decide_eq_true_eq] at hpx
    exact ⟨x, hx, hpx.1.1.1, hpx.1.1.2, hpx.1.2, hpx.2⟩
  refine ⟨?_, ?_, ?_⟩
  · intro hov
    simp only [createBooking, hp]
    rw [if_neg (not_le.mpr hwf)]
    by_cases h1 : r.start < now + (p.scheduleConfig.minNoticeMinutes : Int)
    · rw [if_pos h1]
    · rw [if_neg h1]
      by_cases h2 : r.start > now + (p.scheduleConfig.maxDaysAhead : Int) * 1440
      · rw [if_pos h2]
      · rw [if_neg h2, if_pos (hfind hov)]
  · intro hov hn hh
    simp only [createBooking, hp]
    rw [if_neg (not_le.mpr hwf), if_neg (by omega), if_neg (by omega),
      if_neg (by simp [hfindn hov]), if_neg (by omega), if_neg (by omega),
      if_neg (by omega)]
  · intro hov hviol
    simp only [createBooking, hp]
    rw [if_neg (not_le.mpr hwf)]
    rcases hviol with h1 | h2
    · rw [if_pos h1]
    · by_cases h1 : r.start < now + (p.scheduleConfig.minNoticeMinutes : Int)
      · rw [if_pos h1]
      · rw [if_neg h1, if_pos (by omega)]

/-- C2 witness: a conflict-free, in-window request is created exactly as
requested. -/
theorem create_booking_spec_witness :
    (¬ hasOverlap ([] : List Booking) reqW) ∧
      createBooking [⟨1, cfgScenarioA⟩] 27000000 ⟨[], 1⟩ reqW
        = .ok (⟨1, 1, 1, 27001440, 27001470, .booked, none⟩,
            ⟨[⟨1, 1, 1, 27001440, 27001470, .booked, none⟩], 2⟩) :=
  ⟨by decide,
    (create_booking_spec ⟨1, cfgScenarioA⟩ (by decide) (by decide) (by decide)
        (by decide) (by decide)).2.1 (by decide) (by decide) (by decide)⟩

/-- C4: a date carrying an `available: false` exception yields zero slots,
unconditionally: no slot of the response lies on that provider-local date,
regardless of how many recurring rules match that weekday or what other
fields the exception carries. -/
theorem blackout_suppresses_day {cfg : ScheduleConfig} {pid : Nat}
    {bkAll : List Booking} {now fromT toT : Int} (e : SchedException)
    (hwf : validTimesB cfg = true) (he : e ∈ cfg.exceptions)
    (hav : e.available = false) :
    ∀ s ∈ computeSlots cfg pid bkAll now fromT toT,
      s.localStart / 1440 ≠ e.date := by
  intro s h
  obtain ⟨day, h1, h2, hs⟩ := mem_computeSlots h
  by_cases hd : day = e.date
  · exfalso
    have hb : blackoutOn cfg.exceptions day = true := by
      rw [blackoutOn]
      rw [Option.isSome_iff_exists]
      have hpe : (fun x => decide (x.date = day) && !x.available) e = true := by
        simp [hav, hd]
      rcases hfq : cfg.exceptions.find? (fun x => decide (x.date = day) && !x.available)
        with _ | x
      · rw [List.find?_eq_none] at hfq
        exact absurd hpe (hfq e he)
      · exact ⟨x, hfq⟩
    rw [daySlots, if_pos hb] at hs
    simp at hs
  · obtain ⟨g1, g2, _⟩ := mem_daySlots_window hs
    have g9 := mem_daySlots_localEnd hwf hs
    omega

/-- C4 witness: Scenario B — the blacked-out Monday contributes no slot. -/
theorem blackout_suppresses_day_witness :
    validTimesB cfgScenarioB = true ∧
      (⟨0, false, none, none⟩ : SchedException) ∈ cfgScenarioB.exceptions ∧
      (computeSlots cfgScenarioB 1 [] 0 0 1439).length = 0 ∧
      ∀ s ∈ computeSlots cfgScenarioB 1 [] 0 0 1439,
        s.localStart / 1440 ≠ (0 : Int) :=
  ⟨by decide, by decide, by decide,
    blackout_suppresses_day ⟨0, false, none, none⟩ (by decide) (by decide) rfl⟩

/-- C5: the Rule Expander contract for one rule on one provider-local date
(stated with the notice/horizon filter trivially satisfied, as in the
claim): if the date's weekday is not in `daysOfWeek` the rule yields no
slots; otherwise it yields exactly the slots
`[startTime + k*slotDuration, startTime + (k+1)*slotDuration)` for
`k = 0, 1, ...` while the slot's end does not exceed `endTime`, so every
emitted slot has length exactly `slotDuration` and a trailing remainder
shorter than `slotDuration` is dropped. -/
theorem rule_expander_spec (bookings : List Booking) (earliest latest tz : Int)
    (r : RecurringRule) (day : Int) (hd : 0 < r.slotDuration)
    (hE : earliest ≤ day * 1440 + (r.startTime : Int) - tz)
    (hL : day * 1440 + (r.endTime : Int) - tz ≤ latest) :
    (weekdayOf day ∉ r.daysOfWeek →
      ruleSlotsForDay bookings earliest latest tz r day = []) ∧
      (weekdayOf day ∈ r.daysOfWeek →
        (ruleSlotsForDay bookings earliest latest tz r day).map
            (fun s => (s.localStart, s.localEnd))
          = (List.range ((r.endTime - r.startTime) / r.slotDuration)).map
              (fun (k : Nat) =>
                (day * 1440 + (r.startTime : Int) + (k : Int) * r.slotDuration,
                 day * 1440 + (r.startTime : Int)
                   + ((k : Int) + 1) * r.slotDuration))) := by
  constructor
  · intro hw
    rw [ruleSlotsForDay, if_neg hw]
  · intro hw
    rw [ruleSlotsForDay, if_pos hw, if_neg (by omega)]
    split
    case isTrue hge =>
      have hle : r.endTime ≤ r.startTime := by omega
      have h0 : (r.endTime - r.startTime) / r.slotDuration = 0 := by
        rw [Nat.sub_eq_zero_of_le hle]
        simp
      rw [h0]
      simp
    case isFalse hlt =>
      rw [emitSlots_map_eq_range (by omega) hE hL]
      have hcount : ((day * 1440 + (r.endTime : Int))
            - (day * 1440 + (r.startTime : Int))).toNat
            / ((r.slotDuration : Int)).toNat
          = (r.endTime - r.startTime) / r.slotDuration := by
        have ha : ((day * 1440 + (r.endTime : Int))
            - (day * 1440 + (r.startTime : Int))).toNat
            = r.endTime - r.startTime := by omega
        have hb : ((r.slotDuration : Int)).toNat = r.slotDuration := by omega
        rw [ha, hb]
      rw [hcount]

/-- C5 witness: Scenario A — on the Monday the rule yields exactly 16 slots
09:00-09:30 .. 16:30-17:00. -/
theorem rule_expander_spec_witness :
    (ruleSlotsForDay [] 0 1000000 0 ruleMonFri 0).length = 16 ∧
      (ruleSlotsForDay [] 0 1000000 0 ruleMonFri 0).map
          (fun s => (s.localStart, s.localEnd))
        = (List.range ((ruleMonFri.endTime - ruleMonFri.startTime)
            / ruleMonFri.slotDuration)).map
            (fun (k : Nat) =>
              ((0 : Int) * 1440 + (ruleMonFri.startTime : Int)
                  + (k : Int) * ruleMonFri.slotDuration,
               (0 : Int) * 1440 + (ruleMonFri.startTime : Int)
                  + ((k : Int) + 1) * ruleMonFri.slotDuration)) :=
  ⟨by decide,
    (rule_expander_spec [] 0 1000000 0 ruleMonFri 0 (by decide) (by decide)
        (by decide)).2 (by decide)⟩

/-- C6: a returned slot is marked booked iff some `booked`-status booking of
the provider strictly overlaps it under half-open semantics
(`slot.start < booking.end` and `slot.end > booking.start`); bookings with
any other status are ignored and endpoint-touching bookings never mark a
slot. -/
theorem isBooked_iff_overlap {cfg : ScheduleConfig} {pid : Nat}
    {bkAll : List Booking} {now fromT toT : Int} {s : Slot}
    (hwf : validTimesB cfg = true)
    (h : s ∈ computeSlots cfg pid bkAll now fromT toT) :
    s.isBooked = true ↔
      ∃ b ∈ bkAll, b.provider = pid ∧ b.status = BookingStatus.booked ∧
        s.start < b.endT ∧ s.endT > b.start := by
  obtain ⟨day, h1, h2, hs⟩ := mem_computeSlots h
  obtain ⟨g1, g2, g3, g4, g5, g6, g7, g8⟩ := mem_daySlots_window hs
  have g9 := mem_daySlots_localEnd hwf hs
  rw [g8, List.find?_isSome]
  constructor
  · rintro ⟨b, hbf, hbo⟩
    rw [fetchBookings, List.mem_filter] at hbf
    obtain ⟨hbmem, hbp⟩ := hbf
    simp only [Bool.and_eq_true, decide_eq_true_eq] at hbp
    simp only [overlaps, decide_eq_true_eq] at hbo
    exact ⟨b, hbmem, hbp.1.1.1, hbp.1.1.2, hbo.1, hbo.2⟩
  · rintro ⟨b, hbmem, hprov, hstat, ho1, ho2⟩
    refine ⟨b, ?_, ?_⟩
    · rw [fetchBookings, List.mem_filter]
      refine ⟨hbmem, ?_⟩
      simp only [Bool.and_eq_true, decide_eq_true_eq]
      refine ⟨⟨⟨hprov, hstat⟩, ?_⟩, ?_⟩
      · simp only [fetchEnd]
        omega
      · simp only [fetchStart]
        omega
    · simp only [overlaps, decide_eq_true_eq]
      exact ⟨ho1, ho2⟩

/-- C6 witness: with one booked booking covering 09:00-09:30, the first
Scenario A slot is returned with `isBooked = true`, and the equivalence
holds at it. -/
theorem isBooked_iff_overlap_witness :
    validTimesB cfgScenarioA = true ∧
      slotABooked ∈ computeSlots cfgScenarioA 1 [bookingB0] 0 0 1439 ∧
      (slotABooked.isBooked = true ↔
        ∃ b ∈ [bookingB0], b.provider = 1 ∧ b.status = BookingStatus.booked ∧
          slotABooked.start < b.endT ∧ slotABooked.endT > b.start) :=
  ⟨by decide, by decide,
    isBooked_iff_overlap (show validTimesB cfgScenarioA = true by decide)
      (show slotABooked ∈ computeSlots cfgScenarioA 1 [bookingB0] 0 0 1439
        by decide)⟩

/-- C7: every returned slot starts no earlier than
`now + minNoticeMinutes` and no later than `now + maxDaysAhead` days, with
`now` evaluated once; the bound applies equally to rule-derived and
exception-derived slots (both emission loops run the same filter). -/
theorem notice_horizon_bounds {cfg : ScheduleConfig} {pid : Nat}
    {bkAll : List Booking} {now fromT toT : Int} {s : Slot}
    (h : s ∈ computeSlots cfg pid bkAll now fromT toT) :
    now + (cfg.minNoticeMinutes : Int) ≤ s.start ∧
      s.start ≤ now + (cfg.maxDaysAhead : Int) * 1440 := by
  obtain ⟨day, h1, h2, hs⟩ := mem_computeSlots h
  obtain ⟨g1, g2, g3, g4, g5, g6, g7, g8⟩ := mem_daySlots_window hs
  exact ⟨g5, g6⟩

/-- C7 witness: the first Scenario A slot lies inside the notice/horizon
window of the query instant 0. -/
theorem notice_horizon_bounds_witness :
    slotA ∈ computeSlots cfgScenarioA 1 [] 0 0 1439 ∧
      (0 : Int) + (cfgScenarioA.minNoticeMinutes : Int) ≤ slotA.start ∧
      slotA.start ≤ (0 : Int) + (cfgScenarioA.maxDaysAhead : Int) * 1440 :=
  ⟨by decide,
    notice_horizon_bounds
      (show slotA ∈ computeSlots cfgScenarioA 1 [] 0 0 1439 by decide)⟩

/-- C9 counterexample: a 2-minute request that passes every earlier check is
rejected only at save time by the pre-save duration hook, which throws a
plain `Error` that surfaces as 500 INTERNAL_ERROR — not as the claimed
ValidationError kind. -/
theorem short_duration_internal_error :
    createBooking [⟨1, cfgScenarioA⟩] 27000000 ⟨[], 1⟩
        ⟨1, 2, 27000060, 27000062⟩ = .error .internal ∧
      ErrKind.internal ≠ ErrKind.validation :=
  ⟨by decide, by decide⟩

/-- C9 (amended): no booking whose duration lies outside [5, 480] minutes is
ever created — `createBooking` always rejects such a request (at the latest
through the model's pre-save duration check, which runs before the insert),
though the rejection is not necessarily surfaced as a validation failure. -/
theorem bad_duration_never_created {providers : List Provider} {now : Int}
    {st : Store} {r : CreateReq}
    (hdur : r.endT - r.start < 5 ∨ r.endT - r.start > 480) :
    ∀ res : Booking × Store,
      createBooking providers now st r = .ok res → False := by
  intro res h
  simp only [createBooking] at h
  split at h
  · exact Except.noConfusion h
  · split at h
    · exact Except.noConfusion h
    split at h
    · exact Except.noConfusion h
    split at h
    · exact Except.noConfusion h
    split at h
    · exact Except.noConfusion h
    split at h
    · exact Except.noConfusion h
    split at h
    · exact Except.noConfusion h
    split at h
    · exact Except.noConfusion h
    omega

/-- C9 witness: the same 2-minute request is never created. -/
theorem bad_duration_never_created_witness :
    ((27000062 : Int) - 27000060 < 5 ∨ (27000062 : Int) - 27000060 > 480) ∧
      ∀ res : Booking × Store,
        createBooking [⟨1, cfgScenarioA⟩] 27000000 ⟨[], 1⟩
            ⟨1, 2, 27000060, 27000062⟩ = .ok res → False :=
  ⟨by decide, fun res h => bad_duration_never_created (by decide) res h⟩

/-- C3 counterexample: for a provider with no recurring rules, an
`available: true` exception with both times set yields no slots at all —
`generateSlotsForRange` returns before exception processing — whereas the
claim promises an added 30-minute-stepped sequence (here 18:00-18:30 and
18:30-19:00). -/
theorem exception_no_rules_counterexample :
    cfgNoRules.recurringRules = [] ∧
      (⟨0, true, some 1080, some 1140⟩ : SchedException) ∈ cfgNoRules.exceptions ∧
      availability [⟨1, cfgNoRules⟩] [] 0 1 (some 0) (some 1440) = .ok [] :=
  ⟨rfl, by decide, by decide⟩

/-- C3 (amended): on a day with an `available: true` exception carrying both
times (and no blackout), the day's output is the recurring-rule slots
followed by an additional sequence stepped over `[startTime, endTime)` whose
duration is the first configured rule's `slotDuration`; the added sequence
augments the rule slots rather than replacing or clipping them, and each
added slot is flagged `isException`.  (When no recurring rule exists the
pipeline returns no slots at all, so the code's 30-minute fallback is
unreachable through `computeAvailability`.) -/
theorem exception_augments_day {cfg : ScheduleConfig} {bookings : List Booking}
    {earliest latest day : Int} (e : SchedException) (st et : Nat)
    (r0 : RecurringRule)
    (hr0 : cfg.recurringRules.head? = some r0) (hd0 : r0.slotDuration ≠ 0)
    (hnb : blackoutOn cfg.exceptions day = false)
    (hexc : cfg.exceptions.filter (fun x =>
        decide (x.date = day) && x.available && x.startTime.isSome
          && x.endTime.isSome) = [e])
    (hst : e.startTime = some st) (het : e.endTime = some et) (hlt : st < et)
    (hE : earliest ≤ day * 1440 + (st : Int) - cfg.tzOffset)
    (hL : day * 1440 + (et : Int) - cfg.tzOffset ≤ latest) :
    daySlots cfg bookings earliest latest day
      = (cfg.recurringRules.flatMap fun r =>
          ruleSlotsForDay bookings earliest latest cfg.tzOffset r day)
        ++ emitSlots bookings earliest latest cfg.tzOffset true
            (day * 1440 + st) (day * 1440 + et) r0.slotDuration ∧
      (emitSlots bookings earliest latest cfg.tzOffset true
          (day * 1440 + st) (day * 1440 + et) r0.slotDuration).map
          (fun s => (s.localStart, s.localEnd))
        = (List.range ((et - st) / r0.slotDuration)).map
            (fun (k : Nat) =>
              (day * 1440 + (st : Int) + (k : Int) * r0.slotDuration,
               day * 1440 + (st : Int) + ((k : Int) + 1) * r0.slotDuration)) ∧
      ∀ s ∈ emitSlots bookings earliest latest cfg.tzOffset true
          (day * 1440 + st) (day * 1440 + et) r0.slotDuration,
        s.isException = true := by
  have hdur : exceptionDuration cfg.recurringRules = r0.slotDuration := by
    unfold exceptionDuration
    rw [hr0]
    simp [hd0]
  refine ⟨?_, ?_, ?_⟩
  · rw [daySlots, if_neg (by simp [hnb])]
    congr 1
    simp only [exceptionSlotsForDay]
    rw [hexc]
    simp only [List.flatMap_cons, List.flatMap_nil, List.append_nil]
    rw [hst, het]
    simp only
    rw [if_neg (by omega), hdur]
  · rw [emitSlots_map_eq_range (by omega) hE hL]
    have hcount : ((day * 1440 + (et : Int)) - (day * 1440 + (st : Int))).toNat
          / ((r0.slotDuration : Int)).toNat
        = (et - st) / r0.slotDuration := by
      have ha : ((day * 1440 + (et : Int)) - (day * 1440 + (st : Int))).toNat
          = et - st := by omega
      have hb : ((r0.slotDuration : Int)).toNat = r0.slotDuration := by omega
      rw [ha, hb]
    rw [hcount]
  · intro s hs
    exact (mem_emitSlots (by positivity) hs).2.2.2.2.2.1

/-- C3 witness: Scenario C — the full pipeline yields the 16 rule slots plus
the 2 exception slots (18 total), and at the day level the exception window
decomposes as the rule slots plus the stepped 18:00-19:00 sequence. -/
theorem exception_augments_day_witness :
    (computeSlots cfgScenarioC 1 [] 0 0 1439).length = 18 ∧
      ((computeSlots cfgScenarioC 1 [] 0 0 1439).filter
        (fun s => s.isException)).length = 2 ∧
      daySlots cfgScenarioC [] 0 1000000 0
        = (cfgScenarioC.recurringRules.flatMap fun r =>
            ruleSlotsForDay [] 0 1000000 cfgScenarioC.tzOffset r 0)
          ++ emitSlots [] 0 1000000 cfgScenarioC.tzOffset true
              ((0 : Int) * 1440 + 1080) ((0 : Int) * 1440 + 1140)
              ruleMonFri.slotDuration :=
  ⟨by decide, by decide,
    (exception_augments_day ⟨0, true, some 1080, some 1140⟩ 1080 1140 ruleMonFri
        (by decide) (by decide) (by decide) (by decide) rfl rfl (by decide)
        (by decide) (by decide)).1⟩

/-- C8 counterexample: an inverted range (`to` before `from`) on an existing
provider is rejected, but with the 500 INTERNAL_ERROR fallback — the plain
`Error` thrown by `validateInputs` — not with the claimed ValidationError
kind. -/
theorem invalid_range_error_kind :
    availability [⟨1, cfgScenarioA⟩] [] 0 1 (some 100) (some 50)
        = .error .internal ∧
      ErrKind.internal ≠ ErrKind.validation :=
  ⟨by decide, by decide⟩

/-- C8 (amended): the availability computation fails — producing no slots —
whenever the range is invalid (unparsable endpoint or end not strictly
after start) or spans more than 90 days; the failure surfaces as a generic
internal error (the range checks throw plain `Error`s), not as the
ValidationError kind. -/
theorem invalid_range_fails {providers : List Provider}
    {bkAll : List Booking} {now : Int} {pid : Nat} (p : Provider)
    (hp : providers.find? (fun q => decide (q.id = pid)) = some p)
    {fromParsed toParsed : Option Int}
    (hbad : fromParsed = none ∨ toParsed = none ∨
      ∃ fromT toT, fromParsed = some fromT ∧ toParsed = some toT ∧
        (toT ≤ fromT ∨ toT - fromT > 90 * 1440)) :
    availability providers bkAll now pid fromParsed toParsed
      = .error .internal := by
  simp only [availability, hp]
  rcases hbad with h | h | ⟨fromT, toT, hf, ht, hb⟩
  · subst h
    simp [validateInputsM]
  · subst h
    cases fromParsed <;> simp [validateInputsM]
  · subst hf
    subst ht
    simp only [validateInputsM]
    rcases hb with hb | hb
    · rw [if_pos hb]
    · rw [if_neg (by omega), if_pos hb]

/-- C8 witness: a 100-day range on an existing provider fails with the
internal error and yields no slot list. -/
theorem invalid_range_fails_witness :
    availability [⟨1, cfgScenarioA⟩] [] 0 1 (some 0) (some (100 * 1440))
      = .error .internal :=
  invalid_range_fails ⟨1, cfgScenarioA⟩ (by decide)
    (.inr (.inr ⟨0, 100 * 1440, rfl, rfl, .inr (by decide)⟩))

/-- C10: a provider whose scheduleConfig has no recurring rules gets an
empty slot list for every (valid) requested range, every bookings list and
every exceptions list: the `rules.length === 0` early return fires before
exception processing, so even an `available: true` exception window yields
nothing and the 30-minute fallback duration is never exercised. -/
theorem no_rules_no_availability {providers : List Provider}
    {bkAll : List Booking} {now : Int} {pid : Nat} (p : Provider)
    (hp : providers.find? (fun q => decide (q.id = pid)) = some p)
    (hrules : p.scheduleConfig.recurringRules = [])
    {fromT toT : Int} (hrange : fromT < toT)
    (hcap : toT - fromT ≤ 90 * 1440) :
    availability providers bkAll now pid (some fromT) (some toT) = .ok [] := by
  simp only [availability, hp, validateInputsM]
  rw [if_neg (by omega), if_neg (by omega)]
  simp only [computeSlots, hrules]
  rfl

/-- C10 witness: the no-rules provider with a custom-window exception
returns the empty slot list over a one-day range. -/
theorem no_rules_no_availability_witness :
    availability [⟨2, cfgNoRules⟩] [] 0 2 (some 0) (some 1440) = .ok [] :=
  no_rules_no_availability ⟨2, cfgNoRules⟩ (by decide) rfl (by decide)
    (by decide)

end SandboxScheduler
